import Mathlib

/-!
Shallow embedding of `src/expense_tracker.py`, a single-file CLI expense
tracker, together with proofs about its store operations.

Modelling conventions:
* The persisted JSON store is a `List Expense`; every operation takes the
  loaded store and returns the store as persisted after the call together
  with an abstract rendering of what the operation prints.
* Python `float` values are modelled by `PyFloat`: exact rationals for the
  finite values plus `nan`, `inf`, `ninf`, with IEEE comparison semantics
  (any comparison involving `nan` is false).
* The raw `--amount` string is modelled by `RawAmount`, which classifies an
  input string by the result Python's `float()` gives on it: a string
  parsing to a finite value `q`, the strings parsing to NaN (such as
  `"nan"`), to the infinities, or a string `float()` rejects.
* Python truthiness of the optional `--category` / `--month` arguments is
  modelled explicitly: `None` and `""` (resp. `None` and `0`) are falsy.
* Dates are stored by the program as `YYYY-MM-DD` strings and re-parsed
  with `strptime`; they are modelled as a record of year, month, day.
-/

namespace ExpenseTracker

/-- Python float values reachable in this program: exact finite rationals,
NaN and the two infinities. -/
inductive PyFloat where
  | finite (q : ℚ)
  | nan
  | inf
  | ninf
deriving DecidableEq, Repr

/-- IEEE comparison `x <= y` as Python evaluates it: false whenever an
operand is NaN. -/
def PyFloat.le : PyFloat → PyFloat → Bool
  | .nan, _ => false
  | _, .nan => false
  | .ninf, _ => true
  | _, .ninf => false
  | .finite a, .finite b => decide (a ≤ b)
  | .finite _, .inf => true
  | .inf, .inf => true
  | .inf, .finite _ => false

/-- IEEE comparison `x < y` as Python evaluates it: false whenever an
operand is NaN. -/
def PyFloat.lt : PyFloat → PyFloat → Bool
  | .nan, _ => false
  | _, .nan => false
  | .ninf, .ninf => false
  | .ninf, _ => true
  | _, .ninf => false
  | .finite a, .finite b => decide (a < b)
  | .finite _, .inf => true
  | .inf, _ => false

/-- `0 < x` in Python; false for NaN. -/
def PyFloat.isPos (x : PyFloat) : Bool :=
  PyFloat.lt (.finite 0) x

/-- IEEE addition (exact on the finite part; `nan` is absorbing,
`inf + ninf = nan`). Used to model Python's `sum`. -/
def PyFloat.add : PyFloat → PyFloat → PyFloat
  | .nan, _ => .nan
  | _, .nan => .nan
  | .finite a, .finite b => .finite (a + b)
  | .finite _, .inf => .inf
  | .inf, .finite _ => .inf
  | .inf, .inf => .inf
  | .inf, .ninf => .nan
  | .ninf, .inf => .nan
  | .ninf, .finite _ => .ninf
  | .finite _, .ninf => .ninf
  | .ninf, .ninf => .ninf

/-- A raw `--amount` argument, classified by what Python's `float()` does
with the string: `numStr q` are the strings parsing to the finite value
`q`, `nanStr` the strings parsing to NaN (e.g. `"nan"`), `infStr` /
`ninfStr` those parsing to the infinities, and `badStr` the strings
`float()` raises `ValueError` on. -/
inductive RawAmount where
  | numStr (q : ℚ)
  | nanStr
  | infStr
  | ninfStr
  | badStr
deriving DecidableEq, Repr

/-- `float(raw)`: `none` models the `ValueError` raise. -/
def pyFloatOfRaw : RawAmount → Option PyFloat
  | .numStr q => some (.finite q)
  | .nanStr => some .nan
  | .infStr => some .inf
  | .ninfStr => some .ninf
  | .badStr => none

/-- A calendar date as stored in the `date` field (`YYYY-MM-DD`); `strptime`
recovers the numeric fields. -/
structure Date where
  year : Int
  month : Int
  day : Int
deriving DecidableEq, Repr

/-- One record of the persisted store. -/
structure Expense where
  id : Int
  date : Date
  description : String
  amount : PyFloat
  category : String
deriving DecidableEq, Repr

/-- The fixed category set, in source order (`CATEGORIES`). -/
def CATEGORIES : List String :=
  ["Food", "Transportation", "Housing", "Utilities",
   "Entertainment", "Shopping", "Healthcare", "Other"]

/-- `get_next_id`: 1 for an empty store, else the maximum id plus one. -/
def get_next_id (expenses : List Expense) : Int :=
  match expenses with
  | [] => 1
  | e :: rest => (rest.foldl (fun m x => max m x.id) e.id) + 1

/-- `validate_amount`: parse the raw string as a float; both an unparseable
string and a parsed value with `amount <= 0` raise `ValueError`, and the
enclosing handler re-raises with the message `"Invalid amount"`. NOTE: the
check `amount <= 0` is false for NaN, so NaN is accepted. -/
def validate_amount (raw : RawAmount) : Except String PyFloat :=
  match pyFloatOfRaw raw with
  | none => .error "Invalid amount"
  | some a => if a.le (.finite 0) then .error "Invalid amount" else .ok a

/-- The message of the `ValueError` raised for a category outside the set. -/
def invalidCategoryMsg : String :=
  "Invalid category. Available categories: " ++ String.intercalate ", " CATEGORIES

/-- `validate_category`: membership in `CATEGORIES`, error message
enumerating the valid categories. -/
def validate_category (category : String) : Except String String :=
  if category ∈ CATEGORIES then .ok category else .error invalidCategoryMsg

/-- What `add_expense` prints. -/
inductive AddOutput where
  | added (id : Int)
  | error (msg : String)
deriving DecidableEq, Repr

/-- Whether an `add_expense` run ended in the `ValueError` handler. -/
def AddOutput.isError : AddOutput → Bool
  | .error _ => true
  | .added _ => false

/-- `add_expense`: validate amount then category; on success append a record
with the next id and today's date and persist; on `ValueError` print the
error and leave the store untouched. Returns (persisted store, output). -/
def add_expense (st : List Expense) (today : Date) (description : String)
    (amount : RawAmount) (category : String) : List Expense × AddOutput :=
  match validate_amount amount with
  | .error m => (st, .error m)
  | .ok a =>
    match validate_category category with
    | .error m => (st, .error m)
    | .ok c =>
      let newExpense : Expense :=
        { id := get_next_id st, date := today, description, amount := a, category := c }
      (st ++ [newExpense], .added newExpense.id)

/-- What `update_expense` prints. -/
inductive UpdateOutput where
  | updated (id : Int)
  | notFound (id : Int)
  | error (msg : String)
deriving DecidableEq, Repr

/-- The in-place field updates `update_expense` performs on the matched
record, in source order: description (unvalidated), then amount, then
category (each validated, `ValueError` aborting the operation). -/
def apply_updates (e : Expense) (description : Option String)
    (amount : Option RawAmount) (category : Option String) : Except String Expense :=
  let e1 := match description with
    | none => e
    | some d => { e with description := d }
  match amount with
  | none =>
    (match category with
     | none => .ok e1
     | some c =>
       match validate_category c with
       | .error m => .error m
       | .ok c' => .ok { e1 with category := c' })
  | some raw =>
    match validate_amount raw with
    | .error m => .error m
    | .ok a =>
      (match category with
       | none => .ok { e1 with amount := a }
       | some c =>
         match validate_category c with
         | .error m => .error m
         | .ok c' => .ok { e1 with amount := a, category := c' })

/-- Whether an `update_expense` run failed (validation error or no record
with the id). -/
def UpdateOutput.isFailure : UpdateOutput → Bool
  | .updated _ => false
  | .notFound _ => true
  | .error _ => true

/-- The record a successful update leaves in place of a matched record `x`:
id and date are kept, each provided field is overwritten with its
(validated) new value, each omitted field keeps its prior value. -/
def updatedRecord (x : Expense) (description : Option String)
    (amount : Option RawAmount) (category : Option String) : Expense :=
  { id := x.id
    date := x.date
    description := description.getD x.description
    amount := match amount with
      | none => x.amount
      | some raw => ((validate_amount raw).toOption).getD x.amount
    category := category.getD x.category }

/-- `update_expense`: scan for the first record with the given id, apply the
provided field updates, persist on success; `ValueError` or a missing id
leaves the persisted store untouched. Returns (persisted store, output). -/
def update_expense (st : List Expense) (expense_id : Int) (description : Option String)
    (amount : Option RawAmount) (category : Option String) : List Expense × UpdateOutput :=
  match st with
  | [] => ([], .notFound expense_id)
  | e :: rest =>
    if e.id = expense_id then
      match apply_updates e description amount category with
      | .error m => (e :: rest, .error m)
      | .ok e' => (e' :: rest, .updated expense_id)
    else
      match update_expense rest expense_id description amount category with
      | (rest', out) => (e :: rest', out)

/-- What `delete_expense` prints. -/
inductive DeleteOutput where
  | deleted
  | notFound (id : Int)
deriving DecidableEq, Repr

/-- `delete_expense`: drop every record with the id; if nothing was dropped
report `NotFound` without saving, else persist. -/
def delete_expense (st : List Expense) (expense_id : Int) : List Expense × DeleteOutput :=
  let remaining := st.filter (fun e => decide (e.id ≠ expense_id))
  if remaining.length = st.length then (st, .notFound expense_id)
  else (remaining, .deleted)

/-- What `list_expenses` prints: the rendered table is abstracted by the
list of records that become its rows. -/
inductive ListResult where
  | noExpenses
  | error (msg : String)
  | noneInCategory (category : String)
  | table (rows : List Expense)
deriving DecidableEq, Repr

/-- `list_expenses`: empty store short-circuits; a truthy category argument
is validated and then filters; an empty filter result is reported
specially; otherwise the (possibly filtered) rows are rendered. -/
def list_expenses (st : List Expense) (category : Option String) : ListResult :=
  if st = [] then .noExpenses
  else
    match category with
    | none => .table st
    | some c =>
      if c = "" then .table st
      else
        match validate_category c with
        | .error m => .error m
        | .ok _ =>
          let filtered := st.filter (fun e => decide (e.category = c))
          if filtered = [] then .noneInCategory c else .table filtered

/-- Python `sum` over the amounts of a list of records (left fold from
integer 0, modelled as `finite 0`). -/
def pySum (amounts : List PyFloat) : PyFloat :=
  amounts.foldl PyFloat.add (.finite 0)

/-- The subtotal of one category over a record list. -/
def category_total (st : List Expense) (cat : String) : PyFloat :=
  pySum ((st.filter (fun e => decide (e.category = cat))).map (fun e => e.amount))

/-- The per-category breakdown printed by an unfiltered summary: the
categories (in `CATEGORIES` order) whose subtotal compares `> 0`, with
their subtotals. -/
def breakdown (st : List Expense) : List (String × PyFloat) :=
  (CATEGORIES.filter (fun cat => PyFloat.lt (.finite 0) (category_total st cat))).map
    (fun cat => (cat, category_total st cat))

/-- What `get_summary` prints; each `total*` constructor is one of the four
final print branches, the month rendered by its number. -/
inductive SummaryResult where
  | noExpenses
  | error (msg : String)
  | noneInCategory (category : String)
  | totalMonthCat (month : Int) (category : String) (total : PyFloat)
  | totalMonth (month : Int) (total : PyFloat)
  | totalCat (category : String) (total : PyFloat)
  | totalAll (total : PyFloat) (byCategory : List (String × PyFloat))
deriving DecidableEq, Repr

/-- The category-filter step of `get_summary` (guarded by Python truthiness:
`None` and `""` skip it): validation failure and an empty filter result
both return early. -/
def summary_category_step (st : List Expense) (category : Option String) :
    Except SummaryResult (List Expense) :=
  match category with
  | none => .ok st
  | some c =>
    if c = "" then .ok st
    else
      match validate_category c with
      | .error m => .error (.error m)
      | .ok _ =>
        let filtered := st.filter (fun e => decide (e.category = c))
        if filtered = [] then .error (.noneInCategory c) else .ok filtered

/-- The month-filter step of `get_summary` (guarded by Python truthiness:
`None` and `0` skip it): a month outside 1..12 raises, reported as
`"Invalid month"`; a valid month keeps the records of that month in the
current calendar year. -/
def summary_month_step (st : List Expense) (month : Option Int) (currentYear : Int) :
    Except SummaryResult (List Expense) :=
  match month with
  | none => .ok st
  | some m =>
    if m = 0 then .ok st
    else if 1 ≤ m ∧ m ≤ 12 then
      .ok (st.filter (fun e => decide (e.date.month = m ∧ e.date.year = currentYear)))
    else .error (.error "Invalid month")

/-- Truthiness of the month argument at the final print branch. -/
def monthTruthy : Option Int → Bool
  | none => false
  | some m => decide (m ≠ 0)

/-- Truthiness of the category argument at the final print branch. -/
def categoryTruthy : Option String → Bool
  | none => false
  | some c => decide (c ≠ "")

/-- `get_summary`: empty store short-circuits; then the category filter,
then the month filter (each may return early); the total of the surviving
records is printed in the branch picked by which filters are truthy, the
unfiltered branch adding the per-category breakdown. -/
def get_summary (st : List Expense) (month : Option Int) (category : Option String)
    (currentYear : Int) : SummaryResult :=
  if st = [] then .noExpenses
  else
    match summary_category_step st category with
    | .error r => r
    | .ok st1 =>
      match summary_month_step st1 month currentYear with
      | .error r => r
      | .ok st2 =>
        let total := pySum (st2.map (fun e => e.amount))
        if monthTruthy month then
          if categoryTruthy category then
            .totalMonthCat (month.getD 0) (category.getD "") total
          else .totalMonth (month.getD 0) total
        else if categoryTruthy category then .totalCat (category.getD "") total
        else .totalAll total (breakdown st2)

/-- The collection invariant of the spec: pairwise distinct ids, every
amount strictly positive, every category in the fixed set. -/
def Invariant (st : List Expense) : Prop :=
  (st.map (fun e => e.id)).Nodup ∧
    ∀ e ∈ st, e.amount.isPos = true ∧ e.category ∈ CATEGORIES

instance : DecidablePred Invariant := fun st => by
  unfold Invariant; infer_instance

/-- A fixed sample creation date for the concrete runs below. -/
def sampleDate : Date := ⟨2024, 1, 1⟩

/-! ### Helper lemmas -/

lemma init_le_foldl_max (l : List Expense) (init : Int) :
    init ≤ l.foldl (fun m x => max m x.id) init := by
  induction l generalizing init with
  | nil => exact le_refl _
  | cons a t ih =>
    rw [List.foldl_cons]
    exact le_trans (le_max_left init a.id) (ih (max init a.id))

lemma mem_le_foldl_max (l : List Expense) (init : Int) (x : Expense) (hx : x ∈ l) :
    x.id ≤ l.foldl (fun m x => max m x.id) init := by
  induction l generalizing init with
  | nil => cases hx
  | cons a t ih =>
    rw [List.foldl_cons]
    rcases List.mem_cons.mp hx with h | h
    · subst h
      exact le_trans (le_max_right init x.id) (init_le_foldl_max t _)
    · exact ih _ h

lemma foldl_max_attained (l : List Expense) (init : Int) :
    l.foldl (fun m x => max m x.id) init = init ∨
      ∃ x ∈ l, l.foldl (fun m x => max m x.id) init = x.id := by
  induction l generalizing init with
  | nil => exact Or.inl rfl
  | cons a t ih =>
    rw [List.foldl_cons]
    rcases ih (max init a.id) with h | ⟨x, hx, h⟩
    · rcases max_choice init a.id with hm | hm
      · exact Or.inl (h.trans hm)
      · exact Or.inr ⟨a, List.mem_cons_self a t, h.trans hm⟩
    · exact Or.inr ⟨x, List.mem_cons_of_mem a hx, h⟩

lemma id_lt_get_next_id (st : List Expense) (e : Expense) (he : e ∈ st) :
    e.id < get_next_id st := by
  match st with
  | [] => cases he
  | a :: t =>
    have hle : e.id ≤ t.foldl (fun m x => max m x.id) a.id := by
      rcases List.mem_cons.mp he with h | h
      · subst h
        exact init_le_foldl_max t _
      · exact mem_le_foldl_max t _ e h
    have : e.id < t.foldl (fun m x => max m x.id) a.id + 1 := Int.lt_add_one_iff.mpr hle
    simpa [get_next_id] using this

lemma get_next_id_eq_succ_of_mem_max (st : List Expense) (h : st ≠ []) :
    ∃ e ∈ st, get_next_id st = e.id + 1 := by
  match st with
  | [] => exact absurd rfl h
  | a :: t =>
    rcases foldl_max_attained t a.id with hm | ⟨x, hx, hm⟩
    · exact ⟨a, List.mem_cons_self a t, by simp [get_next_id, hm]⟩
    · exact ⟨x, List.mem_cons_of_mem a hx, by simp [get_next_id, hm]⟩

lemma validate_category_of_mem (c : String) (hc : c ∈ CATEGORIES) :
    validate_category c = .ok c := by
  simp [validate_category, hc]

lemma validate_category_of_not_mem (c : String) (hc : c ∉ CATEGORIES) :
    validate_category c = .error invalidCategoryMsg := by
  simp [validate_category, hc]

lemma add_expense_added_eq (st : List Expense) (today : Date) (d : String)
    (raw : RawAmount) (cat : String) (i : Int)
    (h : (add_expense st today d raw cat).2 = .added i) : i = get_next_id st := by
  unfold add_expense at h
  split at h
  · simp at h
  · split at h
    · simp at h
    · simp at h
      exact h.symm

lemma validate_category_ok_iff (c v : String) :
    validate_category c = .ok v ↔ c ∈ CATEGORIES ∧ v = c := by
  unfold validate_category
  split <;> simp_all [eq_comm]

lemma apply_updates_ok_eq (e : Expense) (d : Option String) (a : Option RawAmount)
    (c : Option String) (e' : Expense) (h : apply_updates e d a c = .ok e') :
    e' = updatedRecord e d a c := by
  unfold apply_updates at h
  cases d <;> cases a <;> cases c <;>
    (repeat' split at h) <;>
    (try cases h) <;>
    simp_all [updatedRecord, Except.toOption, validate_category_ok_iff]

lemma map_eq_self_of_mem (l : List Expense) (f : Expense → Expense)
    (h : ∀ x ∈ l, f x = x) : l.map f = l := by
  induction l with
  | nil => rfl
  | cons a t ih =>
    rw [List.map_cons, h a (List.mem_cons_self a t),
      ih fun x hx => h x (List.mem_cons_of_mem a hx)]

lemma update_expense_failure_eq (st : List Expense) (eid : Int) (d : Option String)
    (a : Option RawAmount) (c : Option String)
    (h : (update_expense st eid d a c).2.isFailure = true) :
    (update_expense st eid d a c).1 = st := by
  induction st with
  | nil => rfl
  | cons e rest ih =>
    unfold update_expense at h ⊢
    by_cases he : e.id = eid
    · rw [if_pos he] at h ⊢
      rcases hau : apply_updates e d a c with m | e'
      · simp only [hau]
      · simp only [hau] at h
        simp [UpdateOutput.isFailure] at h
    · rw [if_neg he] at h ⊢
      rcases hrec : update_expense rest eid d a c with ⟨rest', out⟩
      simp only [hrec] at h ⊢
      have hr : rest' = rest := by
        have := ih (by rw [hrec]; exact h)
        rw [hrec] at this
        exact this
      rw [hr]

lemma update_expense_success_eq (st : List Expense) (eid : Int) (d : Option String)
    (a : Option RawAmount) (c : Option String)
    (hnodup : (st.map (fun e => e.id)).Nodup)
    (h : (update_expense st eid d a c).2 = .updated eid) :
    (update_expense st eid d a c).1 =
      st.map (fun x => if x.id = eid then updatedRecord x d a c else x) := by
  induction st with
  | nil => cases h
  | cons e rest ih =>
    rw [List.map_cons, List.nodup_cons] at hnodup
    unfold update_expense at h ⊢
    by_cases he : e.id = eid
    · rw [if_pos he] at h ⊢
      rcases hau : apply_updates e d a c with m | e'
      · simp only [hau] at h
        cases h
      · simp only [hau]
        rw [List.map_cons, if_pos he, ← apply_updates_ok_eq e d a c e' hau]
        have hrest : ∀ x ∈ rest, (if x.id = eid then updatedRecord x d a c else x) = x := by
          intro x hx
          rw [if_neg]
          intro hxe
          exact hnodup.1 (he ▸ hxe ▸ List.mem_map_of_mem (fun e => e.id) hx)
        rw [map_eq_self_of_mem rest _ hrest]
    · rw [if_neg he] at h ⊢
      rcases hrec : update_expense rest eid d a c with ⟨rest', out⟩
      simp only [hrec] at h ⊢
      rw [List.map_cons, if_neg he]
      have := ih hnodup.2 (by rw [hrec]; exact h)
      rw [hrec] at this
      simp only [Prod.fst] at this
      rw [this]

lemma mem_CATEGORIES_ne_empty (s : String) (hs : s ∈ CATEGORIES) : s ≠ "" := by
  fin_cases hs <;> decide

/-! ### Claims -/

/-- C1, counterexample: starting from the empty store, two adds assign ids 1
and 2, deleting id 2 succeeds, and the next add assigns id 2 again — an id
that was assigned and later deleted is reassigned, so ids are not never
reused after deletion. -/
theorem C1_counterexample :
    (add_expense (add_expense [] sampleDate "a" (.numStr 1) "Food").1
        sampleDate "b" (.numStr 2) "Food").2 = .added 2 ∧
    (delete_expense
        (add_expense (add_expense [] sampleDate "a" (.numStr 1) "Food").1
          sampleDate "b" (.numStr 2) "Food").1 2).2 = .deleted ∧
    (add_expense
        (delete_expense
          (add_expense (add_expense [] sampleDate "a" (.numStr 1) "Food").1
            sampleDate "b" (.numStr 2) "Food").1 2).1
        sampleDate "c" (.numStr 3) "Food").2 = .added 2 :=
  ⟨by decide, by decide, by decide⟩

/-- C1, amended: a deleted id can be reassigned (see the counterexample),
but as long as some record whose id is at least the deleted id remains in
the store, a subsequent add never reassigns the deleted id, because the
assigned id is one greater than the maximum id present. -/
theorem C1_amended_no_reuse_below_max (st : List Expense) (deletedId : Int)
    (e : Expense) (he : e ∈ st) (hd : deletedId ≤ e.id)
    (today : Date) (d : String) (raw : RawAmount) (cat : String) (i : Int)
    (hi : (add_expense st today d raw cat).2 = .added i) : i ≠ deletedId := by
  have hnext := add_expense_added_eq st today d raw cat i hi
  have hlt := id_lt_get_next_id st e he
  subst hnext
  omega

/-- Witness for C1_amended_no_reuse_below_max: on a store holding id 1, an
add assigns id 2, which differs from the (hypothetically deleted) id 1. -/
theorem C1_amended_witness :
    (⟨1, sampleDate, "a", .finite 1, "Food"⟩ : Expense) ∈
      [(⟨1, sampleDate, "a", .finite 1, "Food"⟩ : Expense)] ∧
    (1 : Int) ≤ (1 : Int) ∧
    (add_expense [⟨1, sampleDate, "a", .finite 1, "Food"⟩]
      sampleDate "b" (.numStr 2) "Food").2 = .added 2 ∧
    (2 : Int) ≠ 1 :=
  ⟨by decide, by decide, by decide,
    C1_amended_no_reuse_below_max [⟨1, sampleDate, "a", .finite 1, "Food"⟩] 1
      ⟨1, sampleDate, "a", .finite 1, "Food"⟩ (by decide) (by decide)
      sampleDate "b" (.numStr 2) "Food" 2 (by decide)⟩

/-- C2, counterexample: on the empty store, `list` with the invalid category
"Bogus" reports the empty store instead of failing with the invalid-category
message, and with the invalid category `""` on a non-empty store the filter
is skipped entirely and everything is rendered. -/
theorem C2_counterexample :
    list_expenses [] (some "Bogus") = .noExpenses ∧
    list_expenses [] (some "Bogus") ≠ .error invalidCategoryMsg ∧
    "Bogus" ∉ CATEGORIES ∧
    list_expenses [⟨1, sampleDate, "a", .finite 1, "Food"⟩] (some "") =
      .table [⟨1, sampleDate, "a", .finite 1, "Food"⟩] ∧
    "" ∉ CATEGORIES :=
  ⟨by decide, by decide, by decide, by decide, by decide⟩

/-- C2, amended: on a non-empty store, `list` with a non-empty category
argument outside the fixed set fails with the invalid-category message
enumerating the valid categories, and nothing is filtered or rendered; the
empty store is reported before validation, and an empty category string is
treated as no filter. -/
theorem C2_amended_validates_first (st : List Expense) (c : String)
    (hne : st ≠ []) (hcne : c ≠ "") (hnotin : c ∉ CATEGORIES) :
    list_expenses st (some c) = .error invalidCategoryMsg := by
  unfold list_expenses
  rw [if_neg hne]
  simp only [validate_category_of_not_mem c hnotin, if_neg hcne]

/-- Witness for C2_amended_validates_first at a one-record store and the
invalid category "Bogus". -/
theorem C2_amended_witness :
    [(⟨1, sampleDate, "a", .finite 1, "Food"⟩ : Expense)] ≠ [] ∧
    "Bogus" ≠ "" ∧ "Bogus" ∉ CATEGORIES ∧
    list_expenses [⟨1, sampleDate, "a", .finite 1, "Food"⟩] (some "Bogus") =
      .error invalidCategoryMsg :=
  ⟨by decide, by decide, by decide,
    C2_amended_validates_first [⟨1, sampleDate, "a", .finite 1, "Food"⟩] "Bogus"
      (by decide) (by decide) (by decide)⟩

/-- C3, counterexample: on the empty store, `summary` with month 13 reports
the empty store instead of failing with "Invalid month"; and month 0 —
also outside 1–12 — is falsy in Python, so the month filter is skipped and
an ordinary total is printed instead of any error. -/
theorem C3_counterexample :
    get_summary [] (some 13) none 2025 = .noExpenses ∧
    get_summary [] (some 13) none 2025 ≠ .error "Invalid month" ∧
    get_summary [⟨1, ⟨2025, 1, 1⟩, "a", .finite 1, "Food"⟩] (some 0) none 2025 =
      .totalAll (.finite 1) [("Food", .finite 1)] ∧
    get_summary [⟨1, ⟨2025, 1, 1⟩, "a", .finite 1, "Food"⟩] (some 0) none 2025 ≠
      .error "Invalid month" := by
  refine ⟨by decide, by decide, ?_, ?_⟩ <;>
    simp [get_summary, summary_category_step, summary_month_step, monthTruthy,
      categoryTruthy, pySum, PyFloat.add, breakdown, category_total, CATEGORIES,
      PyFloat.lt, List.filter]

/-- C3, amended: on a non-empty store, a nonzero month outside 1–12 makes
`summary` fail with "Invalid month" and no total is reported; this also
holds under a category filter provided the category is valid and matches at
least one record (the empty store, month 0, and an earlier category failure
all bypass the month check). -/
theorem C3_amended_invalid_month (st : List Expense) (m y : Int) (c : String)
    (hne : st ≠ []) (hm0 : m ≠ 0) (hm : ¬(1 ≤ m ∧ m ≤ 12)) :
    get_summary st (some m) none y = .error "Invalid month" ∧
    (c ∈ CATEGORIES → st.filter (fun e => decide (e.category = c)) ≠ [] →
      get_summary st (some m) (some c) y = .error "Invalid month") := by
  constructor
  · unfold get_summary
    rw [if_neg hne]
    unfold summary_category_step summary_month_step
    simp only [if_neg hm0, if_neg hm]
  · intro hc hfil
    unfold get_summary
    rw [if_neg hne]
    unfold summary_category_step summary_month_step
    simp only [if_neg (mem_CATEGORIES_ne_empty c hc), validate_category_of_mem c hc,
      if_neg hfil, if_neg hm0, if_neg hm]

/-- Witness for C3_amended_invalid_month: a one-record store, month 13, and
the valid matching category "Food". -/
theorem C3_amended_witness :
    [(⟨1, sampleDate, "a", .finite 1, "Food"⟩ : Expense)] ≠ [] ∧
    (13 : Int) ≠ 0 ∧ ¬((1 : Int) ≤ 13 ∧ (13 : Int) ≤ 12) ∧
    get_summary [⟨1, sampleDate, "a", .finite 1, "Food"⟩] (some 13) none 2025 =
      .error "Invalid month" ∧
    get_summary [⟨1, sampleDate, "a", .finite 1, "Food"⟩] (some 13) (some "Food") 2025 =
      .error "Invalid month" :=
  ⟨by decide, by decide, by decide,
    (C3_amended_invalid_month [⟨1, sampleDate, "a", .finite 1, "Food"⟩] 13 2025 "Food"
      (by decide) (by decide) (by decide)).1,
    (C3_amended_invalid_month [⟨1, sampleDate, "a", .finite 1, "Food"⟩] 13 2025 "Food"
      (by decide) (by decide) (by decide)).2 (by decide) (by decide)⟩

/-- C4: for a store that reports a total and any valid month m, the total of
`summary(month = m)` sums exactly the records whose date has month m AND
whose year is the current calendar year; same-month records of other years
are excluded. -/
theorem C4_month_filter_restricts_to_current_year (st : List Expense) (m y : Int)
    (hne : st ≠ []) (h1 : 1 ≤ m) (h2 : m ≤ 12) :
    get_summary st (some m) none y =
      .totalMonth m (pySum ((st.filter
        (fun e => decide (e.date.month = m ∧ e.date.year = y))).map
          (fun e => e.amount))) := by
  have hm0 : m ≠ 0 := by omega
  unfold get_summary
  rw [if_neg hne]
  unfold summary_category_step summary_month_step
  simp only [if_neg hm0, if_pos (And.intro h1 h2)]
  simp [monthTruthy, categoryTruthy, hm0]

/-- Witness for C4: a store with a March 2024 and a March 2025 record; with
current year 2025, `summary(month = 3)` totals only the 2025 record. -/
theorem C4_witness :
    [(⟨1, ⟨2024, 3, 5⟩, "a", .finite 1, "Food"⟩ : Expense),
      ⟨2, ⟨2025, 3, 6⟩, "b", .finite 2, "Food"⟩] ≠ [] ∧
    (1 : Int) ≤ 3 ∧ (3 : Int) ≤ 12 ∧
    get_summary [⟨1, ⟨2024, 3, 5⟩, "a", .finite 1, "Food"⟩,
        ⟨2, ⟨2025, 3, 6⟩, "b", .finite 2, "Food"⟩] (some 3) none 2025 =
      .totalMonth 3 (pySum (([(⟨1, ⟨2024, 3, 5⟩, "a", .finite 1, "Food"⟩ : Expense),
        ⟨2, ⟨2025, 3, 6⟩, "b", .finite 2, "Food"⟩].filter
          (fun e => decide (e.date.month = 3 ∧ e.date.year = 2025))).map
            (fun e => e.amount))) :=
  ⟨by decide, by decide, by decide,
    C4_month_filter_restricts_to_current_year
      [⟨1, ⟨2024, 3, 5⟩, "a", .finite 1, "Food"⟩,
        ⟨2, ⟨2025, 3, 6⟩, "b", .finite 2, "Food"⟩] 3 2025
      (by decide) (by decide) (by decide)⟩

/-- C5: when `add` fails validation, or `update` fails validation or finds
no record with the id, the persisted store is exactly the store the
operation started from — no record added, changed or removed. -/
theorem C5_no_mutation_on_failure (st : List Expense) (today : Date) (desc : String)
    (raw : RawAmount) (cat : String) (eid : Int) (d : Option String)
    (a : Option RawAmount) (c : Option String) :
    ((add_expense st today desc raw cat).2.isError = true →
      (add_expense st today desc raw cat).1 = st) ∧
    ((update_expense st eid d a c).2.isFailure = true →
      (update_expense st eid d a c).1 = st) := by
  refine ⟨?_, update_expense_failure_eq st eid d a c⟩
  intro h
  unfold add_expense at h ⊢
  rcases hva : validate_amount raw with m | av
  · simp only [hva]
  · rcases hvc : validate_category cat with m | cv
    · simp only [hva, hvc]
    · simp only [hva, hvc] at h
      simp [AddOutput.isError] at h

/-- Witness for C5: a negative-amount add on the empty store, an
invalid-amount update, and a not-found update all leave the store as it
was. -/
theorem C5_witness :
    (add_expense [] sampleDate "x" (.numStr (-5)) "Food").2.isError = true ∧
    (add_expense [] sampleDate "x" (.numStr (-5)) "Food").1 = [] ∧
    (update_expense [⟨1, sampleDate, "a", .finite 1, "Food"⟩] 1 none (some .badStr)
        none).2.isFailure = true ∧
    (update_expense [⟨1, sampleDate, "a", .finite 1, "Food"⟩] 1 none (some .badStr)
        none).1 = [⟨1, sampleDate, "a", .finite 1, "Food"⟩] ∧
    (update_expense [⟨1, sampleDate, "a", .finite 1, "Food"⟩] 2 (some "y") none
        none).2.isFailure = true ∧
    (update_expense [⟨1, sampleDate, "a", .finite 1, "Food"⟩] 2 (some "y") none
        none).1 = [⟨1, sampleDate, "a", .finite 1, "Food"⟩] :=
  ⟨by decide,
    (C5_no_mutation_on_failure [] sampleDate "x" (.numStr (-5)) "Food" 0 none none
      none).1 (by decide),
    by decide,
    (C5_no_mutation_on_failure [⟨1, sampleDate, "a", .finite 1, "Food"⟩] sampleDate ""
      .badStr "" 1 none (some .badStr) none).2 (by decide),
    by decide,
    (C5_no_mutation_on_failure [⟨1, sampleDate, "a", .finite 1, "Food"⟩] sampleDate ""
      .badStr "" 2 (some "y") none none).2 (by decide)⟩

/-- C6: on a store with pairwise distinct ids, a successful update rewrites
exactly the record with the given id to `updatedRecord` — which keeps its id
and date, overwrites each provided field with its validated value and keeps
every omitted field — and leaves every other record unchanged in place. -/
theorem C6_update_frame (st : List Expense) (eid : Int) (d : Option String)
    (a : Option RawAmount) (c : Option String)
    (hnodup : (st.map (fun e => e.id)).Nodup)
    (hsucc : (update_expense st eid d a c).2 = .updated eid) :
    (update_expense st eid d a c).1 =
      st.map (fun x => if x.id = eid then updatedRecord x d a c else x) :=
  update_expense_success_eq st eid d a c hnodup hsucc

/-- Witness for C6: updating description and category of id 2 in a
two-record store rewrites only that record. -/
theorem C6_witness :
    (([(⟨1, sampleDate, "a", .finite 1, "Food"⟩ : Expense),
        ⟨2, sampleDate, "b", .finite 2, "Transportation"⟩].map
          (fun e => e.id)).Nodup) ∧
    (update_expense [⟨1, sampleDate, "a", .finite 1, "Food"⟩,
        ⟨2, sampleDate, "b", .finite 2, "Transportation"⟩] 2 (some "bus") none
          (some "Other")).2 = .updated 2 ∧
    (update_expense [⟨1, sampleDate, "a", .finite 1, "Food"⟩,
        ⟨2, sampleDate, "b", .finite 2, "Transportation"⟩] 2 (some "bus") none
          (some "Other")).1 =
      [(⟨1, sampleDate, "a", .finite 1, "Food"⟩ : Expense),
        ⟨2, sampleDate, "b", .finite 2, "Transportation"⟩].map
          (fun x => if x.id = 2 then updatedRecord x (some "bus") none (some "Other")
            else x) :=
  ⟨by decide, by decide,
    C6_update_frame [⟨1, sampleDate, "a", .finite 1, "Food"⟩,
        ⟨2, sampleDate, "b", .finite 2, "Transportation"⟩] 2 (some "bus") none
      (some "Other") (by decide) (by decide)⟩

/-- C7, counterexample: on a store whose only record has category "Food",
`summary(category = "Transportation")` prints a no-expenses message and
reports no total at all, rather than a total of 0. -/
theorem C7_counterexample :
    get_summary [⟨1, ⟨2024, 1, 5⟩, "Coffee", .finite (9/2), "Food"⟩] none
        (some "Transportation") 2025 = .noneInCategory "Transportation" ∧
    get_summary [⟨1, ⟨2024, 1, 5⟩, "Coffee", .finite (9/2), "Food"⟩] none
        (some "Transportation") 2025 ≠ .totalCat "Transportation" (.finite 0) :=
  ⟨by decide, by decide⟩

/-- C7, amended: on a non-empty store, the unfiltered summary total is the
sum of all record amounts, and for a valid category C the summary total is
the sum over the records of category C whenever at least one such record
exists; when none does, a no-expenses-in-category message is reported and no
total is printed. -/
theorem C7_amended_summary_totals (st : List Expense) (c : String) (y : Int)
    (hne : st ≠ []) (hc : c ∈ CATEGORIES) :
    get_summary st none none y =
      .totalAll (pySum (st.map (fun e => e.amount))) (breakdown st) ∧
    (st.filter (fun e => decide (e.category = c)) ≠ [] →
      get_summary st none (some c) y =
        .totalCat c (pySum ((st.filter (fun e => decide (e.category = c))).map
          (fun e => e.amount)))) ∧
    (st.filter (fun e => decide (e.category = c)) = [] →
      get_summary st none (some c) y = .noneInCategory c) := by
  refine ⟨?_, fun hfil => ?_, fun hfil => ?_⟩
  · unfold get_summary
    rw [if_neg hne]
    unfold summary_category_step summary_month_step
    simp [monthTruthy, categoryTruthy]
  · unfold get_summary
    rw [if_neg hne]
    unfold summary_category_step summary_month_step
    simp only [if_neg (mem_CATEGORIES_ne_empty c hc), validate_category_of_mem c hc,
      if_neg hfil]
    simp [monthTruthy, categoryTruthy, mem_CATEGORIES_ne_empty c hc]
  · unfold get_summary
    rw [if_neg hne]
    unfold summary_category_step
    simp only [if_neg (mem_CATEGORIES_ne_empty c hc), validate_category_of_mem c hc,
      if_pos hfil]

/-- Witness for C7_amended_summary_totals on the two-record store of the
spec example. -/
theorem C7_amended_witness :
    [(⟨1, ⟨2024, 1, 5⟩, "Coffee", .finite (9/2), "Food"⟩ : Expense),
      ⟨2, sampleDate, "Bus", .finite (11/4), "Transportation"⟩] ≠ [] ∧
    "Food" ∈ CATEGORIES ∧
    get_summary [⟨1, ⟨2024, 1, 5⟩, "Coffee", .finite (9/2), "Food"⟩,
        ⟨2, sampleDate, "Bus", .finite (11/4), "Transportation"⟩] none none 2025 =
      .totalAll (pySum ([(⟨1, ⟨2024, 1, 5⟩, "Coffee", .finite (9/2), "Food"⟩ : Expense),
        ⟨2, sampleDate, "Bus", .finite (11/4), "Transportation"⟩].map
          (fun e => e.amount)))
        (breakdown [⟨1, ⟨2024, 1, 5⟩, "Coffee", .finite (9/2), "Food"⟩,
          ⟨2, sampleDate, "Bus", .finite (11/4), "Transportation"⟩]) :=
  ⟨by decide, by decide,
    (C7_amended_summary_totals [⟨1, ⟨2024, 1, 5⟩, "Coffee", .finite (9/2), "Food"⟩,
        ⟨2, sampleDate, "Bus", .finite (11/4), "Transportation"⟩] "Food" 2025
      (by decide) (by decide)).1⟩

/-- C8: for every add that passes validation, the assigned id is
`get_next_id` of the store: 1 on the empty store, and otherwise strictly
greater than every present id and equal to some present id plus one — that
is, max existing id + 1. -/
theorem C8_next_id (st : List Expense) (today : Date) (d : String)
    (raw : RawAmount) (cat : String) (a : PyFloat)
    (ha : validate_amount raw = .ok a) (hc : cat ∈ CATEGORIES) :
    (add_expense st today d raw cat).2 = .added (get_next_id st) ∧
    (st = [] → get_next_id st = 1) ∧
    (st ≠ [] →
      (∀ e ∈ st, e.id < get_next_id st) ∧ ∃ e ∈ st, get_next_id st = e.id + 1) := by
  refine ⟨?_, ?_, fun hne => ⟨fun e he => id_lt_get_next_id st e he,
    get_next_id_eq_succ_of_mem_max st hne⟩⟩
  · unfold add_expense
    simp only [ha, validate_category_of_mem cat hc]
  · intro h
    subst h
    rfl

/-- Witness for C8_next_id on a store with ids 1 and 4: the add is assigned
id `get_next_id` = 5. -/
theorem C8_witness :
    validate_amount (.numStr 2) = .ok (.finite 2) ∧ "Food" ∈ CATEGORIES ∧
    (add_expense [⟨1, sampleDate, "a", .finite 1, "Food"⟩,
        ⟨4, sampleDate, "b", .finite 2, "Other"⟩] sampleDate "z" (.numStr 2)
          "Food").2 =
      .added (get_next_id [⟨1, sampleDate, "a", .finite 1, "Food"⟩,
        ⟨4, sampleDate, "b", .finite 2, "Other"⟩]) ∧
    get_next_id [(⟨1, sampleDate, "a", .finite 1, "Food"⟩ : Expense),
        ⟨4, sampleDate, "b", .finite 2, "Other"⟩] = 5 :=
  ⟨rfl, by decide,
    (C8_next_id [⟨1, sampleDate, "a", .finite 1, "Food"⟩,
        ⟨4, sampleDate, "b", .finite 2, "Other"⟩] sampleDate "z" (.numStr 2) "Food"
      (.finite 2) rfl (by decide)).1,
    by decide⟩

/-- C9: the collection invariant is NOT preserved by `add`: the raw amount
string "nan" parses to NaN, the rejection test `amount <= 0` is false for
NaN, so the add succeeds and persists a record whose amount fails
`amount > 0` — the code contradicts the intent of its own
"Amount must be positive" check. -/
theorem C9_nan_breaks_invariant :
    Invariant [] ∧
    (add_expense [] sampleDate "x" RawAmount.nanStr "Food").2 = .added 1 ∧
    ¬ Invariant (add_expense [] sampleDate "x" RawAmount.nanStr "Food").1 :=
  ⟨by decide, by decide, by decide⟩

/-- C10: `validate_amount` accepts the string "nan" (it parses as a float
and NaN fails the `amount <= 0` test), its value is not positive, and `add`
persists a record carrying it. -/
theorem C10_nan_accepted :
    validate_amount RawAmount.nanStr = .ok PyFloat.nan ∧
    PyFloat.nan.isPos = false ∧
    (add_expense [] sampleDate "x" RawAmount.nanStr "Food").1 =
      [{ id := 1, date := sampleDate, description := "x", amount := PyFloat.nan,
         category := "Food" }] :=
  ⟨rfl, rfl, rfl⟩

end ExpenseTracker
